import Mathlib

/-!
Shallow embedding of the provider registry and loader of the adele framework
(`provider/provider.go`, `provider/types.go`).

Modelling conventions:
* A Go `map[string]T` held in the loader state is an association list
  `List (String × T)`; lookup of an absent key yields the zero value, which we
  make explicit per use site.
* A Go `map[string]interface{}` configuration payload is a `Config`
  (association list of `ConfigValue`s); a *nil* map is `Option.none` at the
  places where the source distinguishes nil from non-nil.
* The opaque external callbacks `Register`, `Boot`, `Configure` of a provider
  are modelled by their observable outcome: an `Option String` error result
  (as in the repository's own `mockProvider` test double).  The loader calls
  each of them at most once per run, so a fixed outcome per provider is fully
  general for one run.
* Side effects of a run are recorded as a trace of `Event`s; returned Go
  errors become an `Option LoadError`, with the wrapping of the provider name
  (`fmt.Errorf("failed to ... provider '%s': %w", ...)`) kept as structure.
-/

/-- A value stored in a configuration payload.  The Go source only ever
type-asserts payload values to `int`; every non-int value behaves alike. -/
inductive ConfigValue where
  | intVal (n : Int)
  | strVal (s : String)
  | boolVal (b : Bool)
deriving DecidableEq, Repr

/-- A non-nil Go `map[string]interface{}` configuration payload. -/
abbrev Config : Type := List (String × ConfigValue)

/-- A service provider as the loader observes it: its required surface
(`Name`, `Register`, `Boot`) plus the three optional capabilities checked via
dynamic type assertion in the source (`ConfigurableProvider`,
`PriorityProvider`, `OptionalProvider`). -/
structure ServiceProvider where
  name : String
  registerErr : Option String
  bootErr : Option String
  hasConfigure : Bool
  configureErr : Option String
  priorityCap : Option Int
  optionalCap : Option Bool
deriving DecidableEq, Repr

/-- The loader state (`Provider` struct in `provider/types.go`): the
per-instance enable/disable map and the per-provider configuration overlay.
A stored `none` payload models an explicitly stored nil map. -/
structure Provider where
  EnabledProviders : List (String × Bool)
  ProviderConfigs : List (String × Option Config)
deriving DecidableEq, Repr

/-- `IsProviderEnabled`: absent names default to enabled. -/
def Provider.IsProviderEnabled (p : Provider) (name : String) : Bool :=
  match p.EnabledProviders.lookup name with
  | none => true
  | some enabled => enabled

/-- `GetProviderConfig`: a Go map lookup whose zero value is the nil map, so
an absent name and a stored nil map both come back as `none`. -/
def Provider.GetProviderConfig (p : Provider) (name : String) : Option Config :=
  match p.ProviderConfigs.lookup name with
  | none => none
  | some cfg => cfg

/-- Update-or-insert on an association list, the effect of a Go map
assignment `m[k] = v`. -/
def setAssoc {α : Type} : List (String × α) → String → α → List (String × α)
  | [], k, v => [(k, v)]
  | (k0, v0) :: rest, k, v =>
      if k0 = k then (k, v) :: rest else (k0, v0) :: setAssoc rest k v

/-- `SetProviderEnabled`. -/
def Provider.SetProviderEnabled (p : Provider) (name : String) (enabled : Bool) : Provider :=
  { p with EnabledProviders := setAssoc p.EnabledProviders name enabled }

/-- `SetProviderConfig`. -/
def Provider.SetProviderConfig (p : Provider) (name : String) (config : Option Config) : Provider :=
  { p with ProviderConfigs := setAssoc p.ProviderConfigs name config }

/-- `RegisterGlobalProvider`: scans the global registry for a duplicate name
and panics if found (modelled as `none`, the run aborting before the append);
otherwise appends the provider. -/
def RegisterGlobalProvider (globalProviders : List ServiceProvider)
    (provider : ServiceProvider) : Option (List ServiceProvider) :=
  if globalProviders.any (fun q => q.name == provider.name) then none
  else some (globalProviders ++ [provider])

/-- The `config["priority"].(int)` step: the payload must hold an int-typed
value under the key `priority`. -/
def lookupPriorityInt (cfg : Config) : Option Int :=
  match cfg.lookup "priority" with
  | some (ConfigValue.intVal n) => some n
  | _ => none

/-- Priority resolution, the body of the loop in `sortProvidersByPriority`:
start from the default 100; if a config payload exists, take its int-typed
`priority` key, else fall back to the provider's `Priority()` capability; with
no payload, use the capability directly. -/
def Provider.resolvePriority (p : Provider) (prov : ServiceProvider) : Int :=
  match p.GetProviderConfig prov.name with
  | some cfg =>
      match lookupPriorityInt cfg with
      | some customPriority => customPriority
      | none =>
          match prov.priorityCap with
          | some d => d
          | none => 100
  | none =>
      match prov.priorityCap with
      | some d => d
      | none => 100

/-- The `providerWithPriority` pairing built before sorting. -/
def providerPairs (p : Provider) (providers : List ServiceProvider) :
    List (ServiceProvider × Int) :=
  providers.map (fun prov => (prov, p.resolvePriority prov))

/-- One step of the source's insertion sort on a sorted accumulator: the new
element is shifted left past every element of strictly greater priority, i.e.
it lands right before the first strictly greater element. -/
def insertByPriority (x : ServiceProvider × Int) :
    List (ServiceProvider × Int) → List (ServiceProvider × Int)
  | [] => [x]
  | y :: ys => if x.2 < y.2 then x :: y :: ys else y :: insertByPriority x ys

/-- The source's insertion sort: elements are taken left to right and each is
inserted into the sorted prefix (stable: ties keep their original order). -/
def insertionSortByPriority (l : List (ServiceProvider × Int)) :
    List (ServiceProvider × Int) :=
  l.foldl (fun acc x => insertByPriority x acc) []

/-- The fold underlying `insertionSortByPriority`, with the accumulator (the
already-sorted prefix) made explicit for reasoning. -/
def insertFold (acc : List (ServiceProvider × Int)) (l : List (ServiceProvider × Int)) :
    List (ServiceProvider × Int) :=
  l.foldl (fun a x => insertByPriority x a) acc

/-- `sortProvidersByPriority`: pair each provider with its resolved priority,
stable insertion sort ascending, project the providers back out. -/
def Provider.sortProvidersByPriority (p : Provider)
    (providers : List ServiceProvider) : List ServiceProvider :=
  (insertionSortByPriority (providerPairs p providers)).map Prod.fst

/-- An observable call into provider code during a load. -/
inductive Event where
  | configure (name : String) (cfg : Config)
  | register (name : String)
  | boot (name : String)
deriving DecidableEq, Repr

/-- The provider name an event concerns. -/
def Event.provName : Event → String
  | .configure n _ => n
  | .register n => n
  | .boot n => n

/-- Whether an event is a `Boot` call. -/
def Event.isBoot : Event → Bool
  | .boot _ => true
  | _ => false

/-- An error returned by `LoadProviders`, keeping the provider-name wrapping
of the source's `fmt.Errorf` as structure. -/
inductive LoadError where
  | configureFailed (name : String) (err : String)
  | registerFailed (name : String) (err : String)
  | bootFailed (name : String) (err : String)
deriving DecidableEq, Repr

/-- Events emitted by the configure step of the register phase: `Configure`
is called exactly when the provider has the capability and its payload is
non-nil. -/
def configureStepEvents (p : Provider) (prov : ServiceProvider) : List Event :=
  if prov.hasConfigure then
    match p.GetProviderConfig prov.name with
    | some cfg => [Event.configure prov.name cfg]
    | none => []
  else []

/-- Error outcome of the configure step, wrapped with the provider name. -/
def configureStepErr (p : Provider) (prov : ServiceProvider) : Option LoadError :=
  if prov.hasConfigure then
    match p.GetProviderConfig prov.name with
    | some _ =>
        match prov.configureErr with
        | some e => some (LoadError.configureFailed prov.name e)
        | none => none
    | none => none
  else none

/-- Result of the register phase: the emitted events, the providers that
completed registration, and the first error if any. -/
structure RegResult where
  events : List Event
  registered : List ServiceProvider
  err : Option LoadError
deriving DecidableEq, Repr

/-- First pass of `LoadProviders`: skip disabled providers; configure (when
applicable) then register each enabled one, aborting on the first error. -/
def registerPhase (p : Provider) : List ServiceProvider → RegResult
  | [] => ⟨[], [], none⟩
  | prov :: rest =>
      if p.IsProviderEnabled prov.name then
        match configureStepErr p prov with
        | some e => ⟨configureStepEvents p prov, [], some e⟩
        | none =>
            match prov.registerErr with
            | some e =>
                ⟨configureStepEvents p prov ++ [Event.register prov.name], [],
                  some (LoadError.registerFailed prov.name e)⟩
            | none =>
                let r := registerPhase p rest
                ⟨configureStepEvents p prov ++ Event.register prov.name :: r.events,
                  prov :: r.registered, r.err⟩
      else registerPhase p rest

/-- Result of the boot phase. -/
structure BootResult where
  events : List Event
  err : Option LoadError
deriving DecidableEq, Repr

/-- Second pass of `LoadProviders`: boot each registered provider in order; a
failure of an optional provider is skipped, any other failure aborts. -/
def bootPhase : List ServiceProvider → BootResult
  | [] => ⟨[], none⟩
  | prov :: rest =>
      match prov.bootErr with
      | none =>
          let r := bootPhase rest
          ⟨Event.boot prov.name :: r.events, r.err⟩
      | some e =>
          if prov.optionalCap = some true then
            let r := bootPhase rest
            ⟨Event.boot prov.name :: r.events, r.err⟩
          else ⟨[Event.boot prov.name], some (LoadError.bootFailed prov.name e)⟩

/-- `LoadProviders`: sort the registry copy by priority, run the register
phase, and when it succeeds boot the registered providers in the same order.
Returns the trace of calls into provider code and the error result. -/
def Provider.LoadProviders (p : Provider) (globalProviders : List ServiceProvider) :
    List Event × Option LoadError :=
  let sortedProviders := p.sortProvidersByPriority globalProviders
  let r := registerPhase p sortedProviders
  match r.err with
  | some e => (r.events, some e)
  | none =>
      let b := bootPhase r.registered
      (r.events ++ b.events, b.err)

/-- Full loader state: the per-instance loader plus the global registry. -/
structure LoaderState where
  loader : Provider
  registry : List ServiceProvider
deriving DecidableEq, Repr

/-- `LoadProviders` in explicit state-passing form.  The source body performs
no assignment to `p.EnabledProviders`, `p.ProviderConfigs` or the package
variable `globalProviders` (it works on a copy of the registry), so the
translated state is threaded through unchanged. -/
def LoadProvidersS (s : LoaderState) : LoaderState × List Event × Option LoadError :=
  (s, s.loader.LoadProviders s.registry)

/-- The names of the providers receiving `Register` calls, in order. -/
def registerNames (t : List Event) : List String :=
  t.filterMap (fun e =>
    match e with
    | Event.register n => some n
    | _ => none)

/-- The names of the providers receiving `Boot` calls, in order. -/
def bootNames (t : List Event) : List String :=
  t.filterMap (fun e =>
    match e with
    | Event.boot n => some n
    | _ => none)

/-- A priority-paired list is sorted when the priorities are pairwise
nondecreasing. -/
def pairSorted (l : List (ServiceProvider × Int)) : Prop :=
  List.Pairwise (fun a b : ServiceProvider × Int => a.2 ≤ b.2) l

/-- A provider passes the register phase without aborting it: it is either
disabled (skipped) or both its configure step and its `Register` succeed. -/
def regOk (p : Provider) (q : ServiceProvider) : Prop :=
  p.IsProviderEnabled q.name = false ∨
    (configureStepErr p q = none ∧ q.registerErr = none)

/-- The subsequence of a provider list that the register phase works on. -/
def enabledSubset (p : Provider) (l : List ServiceProvider) : List ServiceProvider :=
  l.filter (fun q => p.IsProviderEnabled q.name)

example :
    (Provider.mk [] []).LoadProviders
      [⟨"b", none, none, false, none, some 90, none⟩,
       ⟨"a", none, none, false, none, some 10, none⟩,
       ⟨"c", none, none, false, none, some 50, none⟩]
    = ([Event.register "a", Event.register "c", Event.register "b",
        Event.boot "a", Event.boot "c", Event.boot "b"], none) := by
  decide

/-! ### Properties of the insertion sort -/

theorem insertFold_nil (acc : List (ServiceProvider × Int)) : insertFold acc [] = acc := rfl

theorem insertFold_cons (acc : List (ServiceProvider × Int)) (x : ServiceProvider × Int)
    (l : List (ServiceProvider × Int)) :
    insertFold acc (x :: l) = insertFold (insertByPriority x acc) l := rfl

theorem insertionSortByPriority_eq_insertFold (l : List (ServiceProvider × Int)) :
    insertionSortByPriority l = insertFold [] l := rfl

theorem mem_insertByPriority (x y : ServiceProvider × Int)
    (l : List (ServiceProvider × Int)) :
    y ∈ insertByPriority x l ↔ y = x ∨ y ∈ l := by
  induction l with
  | nil => simp [insertByPriority]
  | cons z zs ih =>
      rw [insertByPriority]
      by_cases hlt : x.2 < z.2
      · rw [if_pos hlt]
        simp [List.mem_cons]
      · rw [if_neg hlt]
        simp [List.mem_cons, ih]
        tauto

theorem insertByPriority_sorted (x : ServiceProvider × Int)
    (l : List (ServiceProvider × Int)) (h : pairSorted l) :
    pairSorted (insertByPriority x l) := by
  induction l with
  | nil => simp [insertByPriority, pairSorted]
  | cons y ys ih =>
      rw [pairSorted, List.pairwise_cons] at h
      obtain ⟨hy, hys⟩ := h
      rw [insertByPriority]
      by_cases hlt : x.2 < y.2
      · rw [if_pos hlt, pairSorted, List.pairwise_cons]
        refine ⟨?_, ?_⟩
        · intro z hz
          rcases List.mem_cons.mp hz with rfl | hz2
          · exact le_of_lt hlt
          · exact le_trans (le_of_lt hlt) (hy z hz2)
        · exact List.Pairwise.cons hy hys
      · rw [if_neg hlt, pairSorted, List.pairwise_cons]
        refine ⟨?_, ?_⟩
        · intro z hz
          rcases (mem_insertByPriority x z ys).mp hz with rfl | hz2
          · exact not_lt.mp hlt
          · exact hy z hz2
        · exact ih hys

theorem insertFold_sorted (l acc : List (ServiceProvider × Int)) (h : pairSorted acc) :
    pairSorted (insertFold acc l) := by
  induction l generalizing acc with
  | nil => exact h
  | cons x xs ih => exact ih (insertByPriority x acc) (insertByPriority_sorted x acc h)

theorem insertionSortByPriority_sorted (l : List (ServiceProvider × Int)) :
    pairSorted (insertionSortByPriority l) :=
  insertFold_sorted l [] (by simp [pairSorted])

theorem mem_insertFold (l acc : List (ServiceProvider × Int)) (y : ServiceProvider × Int) :
    y ∈ insertFold acc l ↔ y ∈ acc ∨ y ∈ l := by
  induction l generalizing acc with
  | nil => simp [insertFold_nil]
  | cons x xs ih =>
      rw [insertFold_cons, ih, mem_insertByPriority]
      simp [List.mem_cons]
      tauto

theorem mem_insertionSortByPriority (l : List (ServiceProvider × Int))
    (y : ServiceProvider × Int) :
    y ∈ insertionSortByPriority l ↔ y ∈ l := by
  rw [insertionSortByPriority_eq_insertFold, mem_insertFold]
  simp

theorem insertByPriority_all_gt (x : ServiceProvider × Int)
    (l : List (ServiceProvider × Int)) (h : ∀ y ∈ l, x.2 < y.2) :
    insertByPriority x l = x :: l := by
  cases l with
  | nil => rfl
  | cons y ys => rw [insertByPriority, if_pos (h y (List.mem_cons_self y ys))]

theorem insertByPriority_all_le (x : ServiceProvider × Int)
    (l : List (ServiceProvider × Int)) (h : ∀ y ∈ l, ¬ x.2 < y.2) :
    insertByPriority x l = l ++ [x] := by
  induction l with
  | nil => rfl
  | cons y ys ih =>
      rw [insertByPriority, if_neg (h y (List.mem_cons_self y ys)),
        ih (fun z hz => h z (List.mem_cons_of_mem y hz))]
      simp

theorem filter_insertByPriority (q : ServiceProvider × Int → Bool)
    (x : ServiceProvider × Int) (l : List (ServiceProvider × Int)) (h : pairSorted l) :
    (insertByPriority x l).filter q
      = if q x then insertByPriority x (l.filter q) else l.filter q := by
  induction l with
  | nil =>
      by_cases hqx : q x = true
      · simp [insertByPriority, List.filter, hqx]
      · simp [insertByPriority, List.filter, hqx]
  | cons y ys ih =>
      rw [pairSorted, List.pairwise_cons] at h
      obtain ⟨hy, hys⟩ := h
      by_cases hlt : x.2 < y.2
      · rw [insertByPriority, if_pos hlt]
        by_cases hqx : q x = true
        · have hall : ∀ z ∈ (y :: ys).filter q, x.2 < z.2 := by
            intro z hz
            rcases List.mem_cons.mp (List.mem_of_mem_filter hz) with rfl | hz2
            · exact hlt
            · exact lt_of_lt_of_le hlt (hy z hz2)
          rw [if_pos hqx, List.filter_cons, if_pos hqx,
            insertByPriority_all_gt x _ hall]
        · rw [if_neg hqx, List.filter_cons, if_neg hqx]
      · rw [insertByPriority, if_neg hlt]
        by_cases hqy : q y = true <;> by_cases hqx : q x = true <;>
          simp [List.filter_cons, hqy, hqx, ih hys, insertByPriority, hlt]

theorem insertFold_filter (q : ServiceProvider × Int → Bool)
    (l acc : List (ServiceProvider × Int)) (h : pairSorted acc) :
    insertFold (acc.filter q) (l.filter q) = (insertFold acc l).filter q := by
  induction l generalizing acc with
  | nil => simp [insertFold_nil]
  | cons x xs ih =>
      rw [insertFold_cons, ← ih (insertByPriority x acc) (insertByPriority_sorted x acc h),
        filter_insertByPriority q x acc h, List.filter_cons]
      by_cases hqx : q x = true
      · rw [if_pos hqx, if_pos hqx, insertFold_cons]
      · rw [if_neg hqx, if_neg hqx]

theorem insertionSortByPriority_filter (q : ServiceProvider × Int → Bool)
    (l : List (ServiceProvider × Int)) :
    insertionSortByPriority (l.filter q) = (insertionSortByPriority l).filter q := by
  rw [insertionSortByPriority_eq_insertFold, insertionSortByPriority_eq_insertFold,
    ← insertFold_filter q l [] (by simp [pairSorted])]
  rfl

theorem insertFold_all_eq (k : Int) (l : List (ServiceProvider × Int)) :
    ∀ acc : List (ServiceProvider × Int), (∀ x ∈ l, x.2 = k) → (∀ y ∈ acc, y.2 = k) →
      insertFold acc l = acc ++ l := by
  induction l with
  | nil =>
      intro acc _ _
      simp [insertFold_nil]
  | cons x xs ih =>
      intro acc hl hacc
      have hx : x.2 = k := hl x (List.mem_cons_self x xs)
      have hle : ∀ y ∈ acc, ¬ x.2 < y.2 := by
        intro y hy
        rw [hx, hacc y hy]
        exact lt_irrefl k
      have hA : ∀ y ∈ acc ++ [x], y.2 = k := by
        intro y hy
        rcases List.mem_append.mp hy with hy2 | hy2
        · exact hacc y hy2
        · rw [List.mem_singleton.mp hy2]
          exact hx
      rw [insertFold_cons, insertByPriority_all_le x acc hle,
        ih (acc ++ [x]) (fun z hz => hl z (List.mem_cons_of_mem x hz)) hA]
      simp

theorem insertionSortByPriority_all_eq (k : Int) (l : List (ServiceProvider × Int))
    (hl : ∀ x ∈ l, x.2 = k) :
    insertionSortByPriority l = l := by
  rw [insertionSortByPriority_eq_insertFold, insertFold_all_eq k l [] hl (by simp)]
  simp

/-! ### Properties of the two phases -/

theorem configureStepEvents_cases (p : Provider) (prov : ServiceProvider) :
    configureStepEvents p prov = [] ∨
      ∃ cfg, p.GetProviderConfig prov.name = some cfg ∧
        configureStepEvents p prov = [Event.configure prov.name cfg] := by
  rw [configureStepEvents]
  split
  · split
    · rename_i cfg heq
      exact Or.inr ⟨cfg, heq, rfl⟩
    · exact Or.inl rfl
  · exact Or.inl rfl

theorem configureStepEvents_spec (p : Provider) (prov : ServiceProvider) :
    ∀ e ∈ configureStepEvents p prov, ∃ cfg, e = Event.configure prov.name cfg := by
  intro e he
  rcases configureStepEvents_cases p prov with h | ⟨cfg, _, h⟩
  · rw [h] at he
    simp at he
  · rw [h] at he
    exact ⟨cfg, List.mem_singleton.mp he⟩

theorem configureStepErr_spec (p : Provider) (prov : ServiceProvider) :
    ∀ er, configureStepErr p prov = some er →
      ∃ msg, er = LoadError.configureFailed prov.name msg := by
  intro er her
  rw [configureStepErr] at her
  split at her
  · split at her
    · split at her
      · exact ⟨_, (Option.some_inj.mp her).symm⟩
      · simp at her
    · simp at her
  · simp at her

theorem registerNames_append (a b : List Event) :
    registerNames (a ++ b) = registerNames a ++ registerNames b := by
  rw [registerNames, registerNames, registerNames, List.filterMap_append]

theorem bootNames_append (a b : List Event) :
    bootNames (a ++ b) = bootNames a ++ bootNames b := by
  rw [bootNames, bootNames, bootNames, List.filterMap_append]

theorem bootNames_eq_nil (t : List Event) :
    (∀ e ∈ t, e.isBoot = false) → bootNames t = [] := by
  induction t with
  | nil =>
      intro _
      rfl
  | cons e es ih =>
      intro h
      have he := h e (List.mem_cons_self e es)
      have hrest := ih (fun x hx => h x (List.mem_cons_of_mem e hx))
      cases e with
      | configure n cfg => simpa [bootNames, List.filterMap_cons] using hrest
      | register n => simpa [bootNames, List.filterMap_cons] using hrest
      | boot n => simp [Event.isBoot] at he

theorem registerNames_eq_nil (t : List Event) :
    (∀ e ∈ t, e.isBoot = true) → registerNames t = [] := by
  induction t with
  | nil =>
      intro _
      rfl
  | cons e es ih =>
      intro h
      have he := h e (List.mem_cons_self e es)
      have hrest := ih (fun x hx => h x (List.mem_cons_of_mem e hx))
      cases e with
      | configure n cfg => simp [Event.isBoot] at he
      | register n => simp [Event.isBoot] at he
      | boot n => simpa [registerNames, List.filterMap_cons] using hrest

theorem registerNames_configureStepEvents (p : Provider) (prov : ServiceProvider) :
    registerNames (configureStepEvents p prov) = [] := by
  rcases configureStepEvents_cases p prov with h | ⟨cfg, _, h⟩ <;>
    simp [h, registerNames, List.filterMap_cons]

theorem registerPhase_nil (p : Provider) : registerPhase p [] = ⟨[], [], none⟩ := rfl

theorem registerPhase_cons_disabled (p : Provider) (prov : ServiceProvider)
    (rest : List ServiceProvider) (h : p.IsProviderEnabled prov.name = false) :
    registerPhase p (prov :: rest) = registerPhase p rest := by
  simp [registerPhase, h]

theorem registerPhase_cons_cfgFail (p : Provider) (prov : ServiceProvider)
    (rest : List ServiceProvider) (er : LoadError)
    (hen : p.IsProviderEnabled prov.name = true)
    (hc : configureStepErr p prov = some er) :
    registerPhase p (prov :: rest) = ⟨configureStepEvents p prov, [], some er⟩ := by
  simp [registerPhase, hen, hc]

theorem registerPhase_cons_regFail (p : Provider) (prov : ServiceProvider)
    (rest : List ServiceProvider) (e : String)
    (hen : p.IsProviderEnabled prov.name = true)
    (hc : configureStepErr p prov = none) (hr : prov.registerErr = some e) :
    registerPhase p (prov :: rest)
      = ⟨configureStepEvents p prov ++ [Event.register prov.name], [],
          some (LoadError.registerFailed prov.name e)⟩ := by
  simp [registerPhase, hen, hc, hr]

theorem registerPhase_cons_ok (p : Provider) (prov : ServiceProvider)
    (rest : List ServiceProvider)
    (hen : p.IsProviderEnabled prov.name = true)
    (hc : configureStepErr p prov = none) (hr : prov.registerErr = none) :
    registerPhase p (prov :: rest)
      = ⟨configureStepEvents p prov ++ Event.register prov.name :: (registerPhase p rest).events,
          prov :: (registerPhase p rest).registered, (registerPhase p rest).err⟩ := by
  simp [registerPhase, hen, hc, hr]

theorem registerPhase_events_not_boot (p : Provider) (l : List ServiceProvider) :
    ∀ e ∈ (registerPhase p l).events, e.isBoot = false := by
  induction l with
  | nil =>
      intro e he
      simp [registerPhase_nil] at he
  | cons prov rest ih =>
      intro e he
      by_cases hen : p.IsProviderEnabled prov.name = true
      · cases hc : configureStepErr p prov with
        | some er =>
            rw [registerPhase_cons_cfgFail p prov rest er hen hc] at he
            rcases configureStepEvents_spec p prov e he with ⟨cfg, rfl⟩
            rfl
        | none =>
            cases hr : prov.registerErr with
            | some er =>
                rw [registerPhase_cons_regFail p prov rest er hen hc hr] at he
                rcases List.mem_append.mp he with h1 | h2
                · rcases configureStepEvents_spec p prov e h1 with ⟨cfg, rfl⟩
                  rfl
                · rw [List.mem_singleton.mp h2]
                  rfl
            | none =>
                rw [registerPhase_cons_ok p prov rest hen hc hr] at he
                rcases List.mem_append.mp he with h1 | h2
                · rcases configureStepEvents_spec p prov e h1 with ⟨cfg, rfl⟩
                  rfl
                · rcases List.mem_cons.mp h2 with rfl | h3
                  · rfl
                  · exact ih e h3
      · rw [registerPhase_cons_disabled p prov rest (by simpa using hen)] at he
        exact ih e he

theorem registerNames_cons_register (n : String) (t : List Event) :
    registerNames (Event.register n :: t) = n :: registerNames t := by
  simp [registerNames, List.filterMap_cons]

theorem bootNames_cons_boot (n : String) (t : List Event) :
    bootNames (Event.boot n :: t) = n :: bootNames t := by
  simp [bootNames, List.filterMap_cons]

theorem registerPhase_events_enabled (p : Provider) (l : List ServiceProvider) :
    ∀ e ∈ (registerPhase p l).events, p.IsProviderEnabled e.provName = true := by
  induction l with
  | nil =>
      intro e he
      simp [registerPhase_nil] at he
  | cons prov rest ih =>
      intro e he
      by_cases hen : p.IsProviderEnabled prov.name = true
      · cases hc : configureStepErr p prov with
        | some er =>
            rw [registerPhase_cons_cfgFail p prov rest er hen hc] at he
            rcases configureStepEvents_spec p prov e he with ⟨cfg, rfl⟩
            exact hen
        | none =>
            cases hr : prov.registerErr with
            | some er =>
                rw [registerPhase_cons_regFail p prov rest er hen hc hr] at he
                rcases List.mem_append.mp he with h1 | h2
                · rcases configureStepEvents_spec p prov e h1 with ⟨cfg, rfl⟩
                  exact hen
                · rw [List.mem_singleton.mp h2]
                  exact hen
            | none =>
                rw [registerPhase_cons_ok p prov rest hen hc hr] at he
                rcases List.mem_append.mp he with h1 | h2
                · rcases configureStepEvents_spec p prov e h1 with ⟨cfg, rfl⟩
                  exact hen
                · rcases List.mem_cons.mp h2 with rfl | h3
                  · exact hen
                  · exact ih e h3
      · rw [registerPhase_cons_disabled p prov rest (by simpa using hen)] at he
        exact ih e he

theorem registerPhase_registered_enabled (p : Provider) (l : List ServiceProvider) :
    ∀ q ∈ (registerPhase p l).registered, p.IsProviderEnabled q.name = true := by
  induction l with
  | nil =>
      intro q hq
      simp [registerPhase_nil] at hq
  | cons prov rest ih =>
      intro q hq
      by_cases hen : p.IsProviderEnabled prov.name = true
      · cases hc : configureStepErr p prov with
        | some er =>
            rw [registerPhase_cons_cfgFail p prov rest er hen hc] at hq
            simp at hq
        | none =>
            cases hr : prov.registerErr with
            | some er =>
                rw [registerPhase_cons_regFail p prov rest er hen hc hr] at hq
                simp at hq
            | none =>
                rw [registerPhase_cons_ok p prov rest hen hc hr] at hq
                rcases List.mem_cons.mp hq with rfl | h3
                · exact hen
                · exact ih q h3
      · rw [registerPhase_cons_disabled p prov rest (by simpa using hen)] at hq
        exact ih q hq

theorem registerPhase_registered_of_err_none (p : Provider) (l : List ServiceProvider) :
    (registerPhase p l).err = none →
      (registerPhase p l).registered = enabledSubset p l := by
  induction l with
  | nil =>
      intro _
      rfl
  | cons prov rest ih =>
      intro h
      by_cases hen : p.IsProviderEnabled prov.name = true
      · cases hc : configureStepErr p prov with
        | some er =>
            rw [registerPhase_cons_cfgFail p prov rest er hen hc] at h
            simp at h
        | none =>
            cases hr : prov.registerErr with
            | some er =>
                rw [registerPhase_cons_regFail p prov rest er hen hc hr] at h
                simp at h
            | none =>
                rw [registerPhase_cons_ok p prov rest hen hc hr] at h
                rw [registerPhase_cons_ok p prov rest hen hc hr, enabledSubset,
                  List.filter_cons, if_pos hen]
                exact congrArg (prov :: ·) (ih h)
      · have hdis : p.IsProviderEnabled prov.name = false := by simpa using hen
        rw [registerPhase_cons_disabled p prov rest hdis] at h
        rw [registerPhase_cons_disabled p prov rest hdis, enabledSubset,
          List.filter_cons, if_neg (by simp [hdis])]
        exact ih h

theorem registerNames_registerPhase_of_err_none (p : Provider) (l : List ServiceProvider) :
    (registerPhase p l).err = none →
      registerNames (registerPhase p l).events
        = (enabledSubset p l).map (fun q => q.name) := by
  induction l with
  | nil =>
      intro _
      rfl
  | cons prov rest ih =>
      intro h
      by_cases hen : p.IsProviderEnabled prov.name = true
      · cases hc : configureStepErr p prov with
        | some er =>
            rw [registerPhase_cons_cfgFail p prov rest er hen hc] at h
            simp at h
        | none =>
            cases hr : prov.registerErr with
            | some er =>
                rw [registerPhase_cons_regFail p prov rest er hen hc hr] at h
                simp at h
            | none =>
                rw [registerPhase_cons_ok p prov rest hen hc hr] at h
                rw [registerPhase_cons_ok p prov rest hen hc hr]
                rw [enabledSubset, List.filter_cons, if_pos hen, List.map_cons]
                rw [registerNames_append, registerNames_configureStepEvents,
                  registerNames_cons_register, List.nil_append, ih h]
                rfl
      · have hdis : p.IsProviderEnabled prov.name = false := by simpa using hen
        rw [registerPhase_cons_disabled p prov rest hdis] at h
        rw [registerPhase_cons_disabled p prov rest hdis, enabledSubset,
          List.filter_cons, if_neg (by simp [hdis])]
        exact ih h

theorem registerPhase_err_none_of_regOk (p : Provider) (l : List ServiceProvider) :
    (∀ q ∈ l, regOk p q) → (registerPhase p l).err = none := by
  induction l with
  | nil =>
      intro _
      rfl
  | cons prov rest ih =>
      intro h
      have hrest := ih (fun q hq => h q (List.mem_cons_of_mem prov hq))
      rcases h prov (List.mem_cons_self prov rest) with hdis | ⟨hc, hr⟩
      · rw [registerPhase_cons_disabled p prov rest hdis]
        exact hrest
      · by_cases hen : p.IsProviderEnabled prov.name = true
        · rw [registerPhase_cons_ok p prov rest hen hc hr]
          exact hrest
        · rw [registerPhase_cons_disabled p prov rest (by simpa using hen)]
          exact hrest

theorem registerPhase_append_regOk (p : Provider) (pre l : List ServiceProvider) :
    (∀ q ∈ pre, regOk p q) →
      registerPhase p (pre ++ l)
        = ⟨(registerPhase p pre).events ++ (registerPhase p l).events,
            (registerPhase p pre).registered ++ (registerPhase p l).registered,
            (registerPhase p l).err⟩ := by
  induction pre with
  | nil =>
      intro _
      simp [registerPhase_nil]
  | cons prov pres ih =>
      intro h
      have hrest := ih (fun q hq => h q (List.mem_cons_of_mem prov hq))
      rcases h prov (List.mem_cons_self prov pres) with hdis | ⟨hc, hr⟩
      · rw [List.cons_append, registerPhase_cons_disabled p prov _ hdis,
          registerPhase_cons_disabled p prov pres hdis, hrest]
      · by_cases hen : p.IsProviderEnabled prov.name = true
        · rw [List.cons_append, registerPhase_cons_ok p prov _ hen hc hr,
            registerPhase_cons_ok p prov pres hen hc hr, hrest]
          simp
        · rw [List.cons_append, registerPhase_cons_disabled p prov _ (by simpa using hen),
            registerPhase_cons_disabled p prov pres (by simpa using hen), hrest]

theorem bootPhase_nil : bootPhase [] = ⟨[], none⟩ := rfl

theorem bootPhase_cons_ok (prov : ServiceProvider) (rest : List ServiceProvider)
    (h : prov.bootErr = none) :
    bootPhase (prov :: rest)
      = ⟨Event.boot prov.name :: (bootPhase rest).events, (bootPhase rest).err⟩ := by
  simp [bootPhase, h]

theorem bootPhase_cons_optional (prov : ServiceProvider) (rest : List ServiceProvider)
    (e : String) (h : prov.bootErr = some e) (hopt : prov.optionalCap = some true) :
    bootPhase (prov :: rest)
      = ⟨Event.boot prov.name :: (bootPhase rest).events, (bootPhase rest).err⟩ := by
  simp [bootPhase, h, hopt]

theorem bootPhase_cons_fail (prov : ServiceProvider) (rest : List ServiceProvider)
    (e : String) (h : prov.bootErr = some e) (hopt : ¬ prov.optionalCap = some true) :
    bootPhase (prov :: rest)
      = ⟨[Event.boot prov.name], some (LoadError.bootFailed prov.name e)⟩ := by
  simp [bootPhase, h, hopt]

theorem bootPhase_events_boot (l : List ServiceProvider) :
    ∀ e ∈ (bootPhase l).events, e.isBoot = true := by
  induction l with
  | nil =>
      intro e he
      simp [bootPhase_nil] at he
  | cons prov rest ih =>
      intro e he
      cases hb : prov.bootErr with
      | none =>
          rw [bootPhase_cons_ok prov rest hb] at he
          rcases List.mem_cons.mp he with rfl | h2
          · rfl
          · exact ih e h2
      | some er =>
          by_cases hopt : prov.optionalCap = some true
          · rw [bootPhase_cons_optional prov rest er hb hopt] at he
            rcases List.mem_cons.mp he with rfl | h2
            · rfl
            · exact ih e h2
          · rw [bootPhase_cons_fail prov rest er hb hopt] at he
            rw [List.mem_singleton.mp he]
            rfl

theorem bootPhase_events_from (l : List ServiceProvider) :
    ∀ e ∈ (bootPhase l).events, ∃ q ∈ l, e = Event.boot q.name := by
  induction l with
  | nil =>
      intro e he
      simp [bootPhase_nil] at he
  | cons prov rest ih =>
      intro e he
      cases hb : prov.bootErr with
      | none =>
          rw [bootPhase_cons_ok prov rest hb] at he
          rcases List.mem_cons.mp he with rfl | h2
          · exact ⟨prov, List.mem_cons_self prov rest, rfl⟩
          · rcases ih e h2 with ⟨q, hq, hqe⟩
            exact ⟨q, List.mem_cons_of_mem prov hq, hqe⟩
      | some er =>
          by_cases hopt : prov.optionalCap = some true
          · rw [bootPhase_cons_optional prov rest er hb hopt] at he
            rcases List.mem_cons.mp he with rfl | h2
            · exact ⟨prov, List.mem_cons_self prov rest, rfl⟩
            · rcases ih e h2 with ⟨q, hq, hqe⟩
              exact ⟨q, List.mem_cons_of_mem prov hq, hqe⟩
          · rw [bootPhase_cons_fail prov rest er hb hopt] at he
            exact ⟨prov, List.mem_cons_self prov rest, List.mem_singleton.mp he⟩

theorem bootPhase_events_of_err_none (l : List ServiceProvider) :
    (bootPhase l).err = none →
      (bootPhase l).events = l.map (fun q => Event.boot q.name) := by
  induction l with
  | nil =>
      intro _
      rfl
  | cons prov rest ih =>
      intro h
      cases hb : prov.bootErr with
      | none =>
          rw [bootPhase_cons_ok prov rest hb] at h
          rw [bootPhase_cons_ok prov rest hb, List.map_cons, ih h]
      | some er =>
          by_cases hopt : prov.optionalCap = some true
          · rw [bootPhase_cons_optional prov rest er hb hopt] at h
            rw [bootPhase_cons_optional prov rest er hb hopt, List.map_cons, ih h]
          · rw [bootPhase_cons_fail prov rest er hb hopt] at h
            simp at h

theorem bootPhase_append_ok (pre l : List ServiceProvider) :
    (∀ q ∈ pre, q.bootErr = none) →
      bootPhase (pre ++ l)
        = ⟨pre.map (fun q => Event.boot q.name) ++ (bootPhase l).events,
            (bootPhase l).err⟩ := by
  induction pre with
  | nil =>
      intro _
      simp
  | cons prov pres ih =>
      intro h
      have hb := h prov (List.mem_cons_self prov pres)
      rw [List.cons_append, bootPhase_cons_ok prov _ hb,
        ih (fun q hq => h q (List.mem_cons_of_mem prov hq))]
      simp

theorem bootNames_map_boot (l : List ServiceProvider) :
    bootNames (l.map (fun q => Event.boot q.name)) = l.map (fun q => q.name) := by
  induction l with
  | nil => rfl
  | cons prov rest ih =>
      simp only [bootNames, List.filterMap_cons, List.map_cons] at ih ⊢
      rw [ih]

/-! ### Characterization of the provider sort -/

theorem providerPairs_snd (p : Provider) (l : List ServiceProvider) :
    ∀ x ∈ providerPairs p l, x.2 = p.resolvePriority x.1 := by
  intro x hx
  rcases List.mem_map.mp hx with ⟨prov, _, rfl⟩
  rfl

theorem sortedPairs_snd (p : Provider) (l : List ServiceProvider) :
    ∀ x ∈ insertionSortByPriority (providerPairs p l), x.2 = p.resolvePriority x.1 := by
  intro x hx
  exact providerPairs_snd p l x ((mem_insertionSortByPriority (providerPairs p l) x).mp hx)

theorem sortProvidersByPriority_sorted (p : Provider) (l : List ServiceProvider) :
    List.Pairwise (fun a b => p.resolvePriority a ≤ p.resolvePriority b)
      (p.sortProvidersByPriority l) := by
  have hs := insertionSortByPriority_sorted (providerPairs p l)
  rw [pairSorted] at hs
  have hs2 : List.Pairwise (fun a b => p.resolvePriority a.1 ≤ p.resolvePriority b.1)
      (insertionSortByPriority (providerPairs p l)) := by
    refine List.Pairwise.imp_of_mem ?_ hs
    intro a b ha hb hab
    rw [← sortedPairs_snd p l a ha, ← sortedPairs_snd p l b hb]
    exact hab
  rw [Provider.sortProvidersByPriority, List.pairwise_map]
  exact hs2

theorem sortProvidersByPriority_filter (p : Provider) (l : List ServiceProvider)
    (en : ServiceProvider → Bool) :
    (p.sortProvidersByPriority l).filter en
      = p.sortProvidersByPriority (l.filter en) := by
  rw [Provider.sortProvidersByPriority, Provider.sortProvidersByPriority,
    List.filter_map Prod.fst (insertionSortByPriority (providerPairs p l)),
    ← insertionSortByPriority_filter (en ∘ Prod.fst) (providerPairs p l)]
  have hp : (providerPairs p l).filter (en ∘ Prod.fst)
      = providerPairs p (l.filter en) := by
    rw [providerPairs, providerPairs,
      List.filter_map (fun prov => (prov, p.resolvePriority prov)) l]
    exact congrArg _ (List.filter_congr (fun x _ => rfl))
  rw [hp]

theorem sortProvidersByPriority_stable (p : Provider) (l : List ServiceProvider) (k : Int) :
    (p.sortProvidersByPriority l).filter (fun q => p.resolvePriority q == k)
      = l.filter (fun q => p.resolvePriority q == k) := by
  rw [sortProvidersByPriority_filter p l (fun q => p.resolvePriority q == k),
    Provider.sortProvidersByPriority]
  have hall : ∀ x ∈ providerPairs p (l.filter (fun q => p.resolvePriority q == k)),
      x.2 = k := by
    intro x hx
    rcases List.mem_map.mp hx with ⟨prov, hprov, rfl⟩
    have hk := (List.mem_filter.mp hprov).2
    exact eq_of_beq hk
  rw [insertionSortByPriority_all_eq k _ hall, providerPairs, List.map_map]
  have hid : (Prod.fst ∘ fun prov : ServiceProvider => (prov, p.resolvePriority prov))
      = fun prov : ServiceProvider => prov := rfl
  rw [hid]
  exact List.map_id' _

/-! ### Unfolding equations for the loader -/

theorem loadProviders_eq (p : Provider) (g : List ServiceProvider) :
    p.LoadProviders g
      = match (registerPhase p (p.sortProvidersByPriority g)).err with
        | some e => ((registerPhase p (p.sortProvidersByPriority g)).events, some e)
        | none =>
            ((registerPhase p (p.sortProvidersByPriority g)).events
                ++ (bootPhase (registerPhase p (p.sortProvidersByPriority g)).registered).events,
              (bootPhase (registerPhase p (p.sortProvidersByPriority g)).registered).err) := rfl

theorem loadProviders_err_some (p : Provider) (g : List ServiceProvider) (e : LoadError)
    (h : (registerPhase p (p.sortProvidersByPriority g)).err = some e) :
    p.LoadProviders g = ((registerPhase p (p.sortProvidersByPriority g)).events, some e) := by
  rw [loadProviders_eq, h]

theorem loadProviders_err_none (p : Provider) (g : List ServiceProvider)
    (h : (registerPhase p (p.sortProvidersByPriority g)).err = none) :
    p.LoadProviders g
      = ((registerPhase p (p.sortProvidersByPriority g)).events
            ++ (bootPhase (registerPhase p (p.sortProvidersByPriority g)).registered).events,
          (bootPhase (registerPhase p (p.sortProvidersByPriority g)).registered).err) := by
  rw [loadProviders_eq, h]

/-! ### Claims -/

/-- C3: priority resolution precedence.  A configuration payload with an
integer-typed `priority` key determines the resolved priority, overriding any
declared capability; with no payload the declared Priority capability is
used; with neither, the global default 100 applies. -/
theorem resolvePriority_precedence (p : Provider) (prov : ServiceProvider) :
    (∀ cfg n, p.GetProviderConfig prov.name = some cfg →
        lookupPriorityInt cfg = some n → p.resolvePriority prov = n) ∧
    (∀ d, p.GetProviderConfig prov.name = none → prov.priorityCap = some d →
        p.resolvePriority prov = d) ∧
    (p.GetProviderConfig prov.name = none → prov.priorityCap = none →
        p.resolvePriority prov = 100) := by
  refine ⟨?_, ?_, ?_⟩
  · intro cfg n hc hn
    simp [Provider.resolvePriority, hc, hn]
  · intro d hc hd
    simp [Provider.resolvePriority, hc, hd]
  · intro hc hd
    simp [Provider.resolvePriority, hc, hd]

/-- C3 witness: a config override `priority = 80` beats a declared capability
of 50; a capability of 50 is used when no payload exists; the default 100
applies when neither exists. -/
theorem resolvePriority_precedence_witness :
    (Provider.mk [] [("a", some [("priority", ConfigValue.intVal 80)])]).resolvePriority
        ⟨"a", none, none, false, none, some 50, none⟩ = 80 ∧
    (Provider.mk [] []).resolvePriority
        ⟨"b", none, none, false, none, some 50, none⟩ = 50 ∧
    (Provider.mk [] []).resolvePriority
        ⟨"c", none, none, false, none, none, none⟩ = 100 := by
  refine ⟨?_, ?_, ?_⟩
  · exact (resolvePriority_precedence _ _).1 [("priority", ConfigValue.intVal 80)] 80
      (by decide) (by decide)
  · exact (resolvePriority_precedence _ _).2.1 50 (by decide) (by decide)
  · exact (resolvePriority_precedence _ _).2.2 (by decide) (by decide)

/-- C4 counterexample: a provider with a declared Priority capability of 50
and a config payload that lacks an integer `priority` key resolves to 50, not
to the global default 100 — the source's inner `else if` branch does consult
the capability in that case, contradicting the claim. -/
theorem resolvePriority_cfg_no_key_counterexample :
    (Provider.mk [] [("x", some [("key", ConfigValue.strVal "v")])]).GetProviderConfig "x"
        = some [("key", ConfigValue.strVal "v")] ∧
    lookupPriorityInt [("key", ConfigValue.strVal "v")] = none ∧
    (Provider.mk [] [("x", some [("key", ConfigValue.strVal "v")])]).resolvePriority
        ⟨"x", none, none, false, none, some 50, none⟩ = 50 ∧
    ¬ (Provider.mk [] [("x", some [("key", ConfigValue.strVal "v")])]).resolvePriority
        ⟨"x", none, none, false, none, some 50, none⟩ = 100 := by
  refine ⟨by decide, by decide, by decide, by decide⟩

/-- C4 amended: when a configuration payload exists for the provider's name
but lacks an integer-typed `priority` key, the resolver falls back to the
provider's declared Priority capability; the global default 100 applies only
when no such capability is exposed. -/
theorem resolvePriority_cfg_no_key (p : Provider) (prov : ServiceProvider) (cfg : Config)
    (hc : p.GetProviderConfig prov.name = some cfg)
    (hn : lookupPriorityInt cfg = none) :
    p.resolvePriority prov = prov.priorityCap.getD 100 := by
  cases hcap : prov.priorityCap with
  | some d => simp [Provider.resolvePriority, hc, hn, hcap]
  | none => simp [Provider.resolvePriority, hc, hn, hcap]

/-- C4 amended witness: the counterexample configuration resolves to the
declared capability value 50. -/
theorem resolvePriority_cfg_no_key_witness :
    (Provider.mk [] [("x", some [("key", ConfigValue.strVal "v")])]).resolvePriority
        ⟨"x", none, none, false, none, some 50, none⟩
      = Option.getD (some 50) 100 :=
  resolvePriority_cfg_no_key _ _ [("key", ConfigValue.strVal "v")] (by decide) (by decide)

/-- C8: `RegisterGlobalProvider` aborts (panics, modelled as `none`, before
any modification of the registry escapes) exactly when a provider of the same
name is already registered; otherwise it appends the new provider, so the
registry grows by one entry and keeps registration order. -/
theorem registerGlobalProvider_spec (g : List ServiceProvider) (prov : ServiceProvider) :
    (RegisterGlobalProvider g prov = none ↔ ∃ q ∈ g, q.name = prov.name) ∧
    (RegisterGlobalProvider g prov = none ∨
      RegisterGlobalProvider g prov = some (g ++ [prov])) := by
  by_cases h : g.any (fun q => q.name == prov.name) = true
  · rw [RegisterGlobalProvider, if_pos h]
    simp only [List.any_eq_true, beq_iff_eq] at h
    exact ⟨iff_of_true rfl h, Or.inl rfl⟩
  · rw [RegisterGlobalProvider, if_neg h]
    simp only [List.any_eq_true, beq_iff_eq] at h
    refine ⟨iff_of_false (by simp) h, Or.inr rfl⟩

/-- C9: `LoadProviders` is read-only with respect to the loader state and the
global registry.  The source body of `LoadProviders` (and of
`sortProvidersByPriority`, which it calls) contains no assignment to
`EnabledProviders`, `ProviderConfigs` or the package-level registry — it
works on a copy of the registry slice — so its state-passing translation
returns the state unchanged. -/
theorem loadProviders_read_only (s : LoaderState) :
    (LoadProvidersS s).1.loader.EnabledProviders = s.loader.EnabledProviders ∧
    (LoadProvidersS s).1.loader.ProviderConfigs = s.loader.ProviderConfigs ∧
    (LoadProvidersS s).1.registry = s.registry :=
  ⟨rfl, rfl, rfl⟩

theorem loadProviders_events_enabled (p : Provider) (g : List ServiceProvider) :
    ∀ e ∈ (p.LoadProviders g).1, p.IsProviderEnabled e.provName = true := by
  intro e he
  cases herr : (registerPhase p (p.sortProvidersByPriority g)).err with
  | some er =>
      rw [loadProviders_err_some p g er herr] at he
      exact registerPhase_events_enabled p _ e he
  | none =>
      rw [loadProviders_err_none p g herr] at he
      rcases List.mem_append.mp he with h1 | h2
      · exact registerPhase_events_enabled p _ e h1
      · rcases bootPhase_events_from _ e h2 with ⟨q, hq, rfl⟩
        exact registerPhase_registered_enabled p _ q hq

/-- C5: a provider whose name is mapped to `false` in the enabled-providers
store never receives a Configure, Register or Boot call during a run of
`LoadProviders`. -/
theorem disabled_provider_no_calls (p : Provider) (g : List ServiceProvider)
    (pname : String) (h : p.EnabledProviders.lookup pname = some false) :
    ∀ e ∈ (p.LoadProviders g).1, e.provName ≠ pname := by
  intro e he heq
  have hen := loadProviders_events_enabled p g e he
  rw [heq] at hen
  simp [Provider.IsProviderEnabled, h] at hen

/-- C5 witness: with provider "d" disabled, loading a registry that contains
"d" emits no Register call for "d". -/
theorem disabled_provider_no_calls_witness :
    (Provider.mk [("d", false)] []).EnabledProviders.lookup "d" = some false ∧
    Event.register "d" ∉
      ((Provider.mk [("d", false)] []).LoadProviders
        [⟨"d", none, none, false, none, none, none⟩]).1 := by
  refine ⟨by decide, ?_⟩
  intro hmem
  exact disabled_provider_no_calls (Provider.mk [("d", false)] [])
    [⟨"d", none, none, false, none, none, none⟩] "d" (by decide)
    (Event.register "d") hmem rfl

/-- C10: for an enabled provider with the Configure capability, `Configure`
is invoked exactly when the stored configuration for its name is a non-nil
map: an absent entry or an explicitly stored nil map leads to `Register` with
no preceding `Configure`, while a non-nil (even empty) map is passed to
`Configure` before `Register`. -/
theorem configure_iff_non_nil_config (p : Provider) (prov : ServiceProvider)
    (hcap : prov.hasConfigure = true)
    (hen : p.IsProviderEnabled prov.name = true)
    (hce : prov.configureErr = none) :
    (p.ProviderConfigs.lookup prov.name = none → p.GetProviderConfig prov.name = none) ∧
    (p.ProviderConfigs.lookup prov.name = some none → p.GetProviderConfig prov.name = none) ∧
    (p.GetProviderConfig prov.name = none →
        (registerPhase p [prov]).events = [Event.register prov.name]) ∧
    (∀ cfg, p.GetProviderConfig prov.name = some cfg →
        (registerPhase p [prov]).events
          = [Event.configure prov.name cfg, Event.register prov.name]) := by
  refine ⟨?_, ?_, ?_, ?_⟩
  · intro hl
    simp [Provider.GetProviderConfig, hl]
  · intro hl
    simp [Provider.GetProviderConfig, hl]
  · intro hcfg
    have hcse : configureStepErr p prov = none := by
      simp [configureStepErr, hcap, hcfg]
    have hcsv : configureStepEvents p prov = [] := by
      simp [configureStepEvents, hcap, hcfg]
    cases hr : prov.registerErr with
    | some e =>
        rw [registerPhase_cons_regFail p prov [] e hen hcse hr]
        simp [hcsv]
    | none =>
        rw [registerPhase_cons_ok p prov [] hen hcse hr]
        simp [hcsv, registerPhase_nil]
  · intro cfg hcfg
    have hcse : configureStepErr p prov = none := by
      simp [configureStepErr, hcap, hcfg, hce]
    have hcsv : configureStepEvents p prov = [Event.configure prov.name cfg] := by
      simp [configureStepEvents, hcap, hcfg]
    cases hr : prov.registerErr with
    | some e =>
        rw [registerPhase_cons_regFail p prov [] e hen hcse hr]
        simp [hcsv]
    | none =>
        rw [registerPhase_cons_ok p prov [] hen hcse hr]
        simp [hcsv, registerPhase_nil]

/-- C10 witness: an absent entry and an explicitly stored nil map both skip
`Configure`; an empty but non-nil map is passed to `Configure` first. -/
theorem configure_iff_non_nil_config_witness :
    (registerPhase (Provider.mk [] [])
        [⟨"n", none, none, true, none, none, none⟩]).events
      = [Event.register "n"] ∧
    (registerPhase (Provider.mk [] [("n", none)])
        [⟨"n", none, none, true, none, none, none⟩]).events
      = [Event.register "n"] ∧
    (registerPhase (Provider.mk [] [("n", some [])])
        [⟨"n", none, none, true, none, none, none⟩]).events
      = [Event.configure "n" [], Event.register "n"] := by
  refine ⟨?_, ?_, ?_⟩
  · exact (configure_iff_non_nil_config (Provider.mk [] [])
      ⟨"n", none, none, true, none, none, none⟩ rfl rfl rfl).2.2.1 (by decide)
  · exact (configure_iff_non_nil_config (Provider.mk [] [("n", none)])
      ⟨"n", none, none, true, none, none, none⟩ rfl rfl rfl).2.2.1 (by decide)
  · exact (configure_iff_non_nil_config (Provider.mk [] [("n", some [])])
      ⟨"n", none, none, true, none, none, none⟩ rfl rfl rfl).2.2.2 [] (by decide)

/-- C1: a successful `LoadProviders` run is strictly two-phased: the trace
splits into a register part (no Boot call) followed by a boot part (only Boot
calls); the Register calls follow the enabled, priority-sorted order, the
resolved priorities along that order are ascending, and the Boot calls repeat
exactly the registered sequence. -/
theorem loadProviders_two_phases (p : Provider) (g : List ServiceProvider)
    (h : (p.LoadProviders g).2 = none) :
    ∃ A B, (p.LoadProviders g).1 = A ++ B ∧
      (∀ e ∈ A, e.isBoot = false) ∧
      (∀ e ∈ B, e.isBoot = true) ∧
      registerNames (p.LoadProviders g).1
        = (enabledSubset p (p.sortProvidersByPriority g)).map (fun q => q.name) ∧
      bootNames (p.LoadProviders g).1 = registerNames (p.LoadProviders g).1 ∧
      List.Pairwise (fun a b => p.resolvePriority a ≤ p.resolvePriority b)
        (enabledSubset p (p.sortProvidersByPriority g)) := by
  cases herr : (registerPhase p (p.sortProvidersByPriority g)).err with
  | some er =>
      rw [loadProviders_err_some p g er herr] at h
      simp at h
  | none =>
      have heq := loadProviders_err_none p g herr
      have hbe : (bootPhase
          (registerPhase p (p.sortProvidersByPriority g)).registered).err = none := by
        rw [heq] at h
        exact h
      have htr : (p.LoadProviders g).1
          = (registerPhase p (p.sortProvidersByPriority g)).events
            ++ (bootPhase
                (registerPhase p (p.sortProvidersByPriority g)).registered).events := by
        rw [heq]
      refine ⟨(registerPhase p (p.sortProvidersByPriority g)).events,
        (bootPhase (registerPhase p (p.sortProvidersByPriority g)).registered).events,
        htr, registerPhase_events_not_boot p _, bootPhase_events_boot _, ?_, ?_, ?_⟩
      · rw [htr, registerNames_append,
          registerNames_eq_nil _ (bootPhase_events_boot _), List.append_nil,
          registerNames_registerPhase_of_err_none p _ herr]
      · rw [htr, registerNames_append,
          registerNames_eq_nil _ (bootPhase_events_boot _), List.append_nil,
          registerNames_registerPhase_of_err_none p _ herr,
          bootNames_append, bootNames_eq_nil _ (registerPhase_events_not_boot p _),
          List.nil_append, bootPhase_events_of_err_none _ hbe, bootNames_map_boot,
          registerPhase_registered_of_err_none p _ herr]
      · exact (sortProvidersByPriority_sorted p g).sublist (List.filter_sublist _)

/-- C1 witness: the spec's example registry with priorities 90, 10, 50
registered in that order loads successfully, so the two-phase decomposition
holds for it. -/
theorem loadProviders_two_phases_witness :
    ((Provider.mk [] []).LoadProviders
        [⟨"b", none, none, false, none, some 90, none⟩,
         ⟨"a", none, none, false, none, some 10, none⟩,
         ⟨"c", none, none, false, none, some 50, none⟩]).2 = none ∧
    ∃ A B, ((Provider.mk [] []).LoadProviders
        [⟨"b", none, none, false, none, some 90, none⟩,
         ⟨"a", none, none, false, none, some 10, none⟩,
         ⟨"c", none, none, false, none, some 50, none⟩]).1 = A ++ B ∧
      (∀ e ∈ A, e.isBoot = false) ∧
      (∀ e ∈ B, e.isBoot = true) ∧
      registerNames ((Provider.mk [] []).LoadProviders
          [⟨"b", none, none, false, none, some 90, none⟩,
           ⟨"a", none, none, false, none, some 10, none⟩,
           ⟨"c", none, none, false, none, some 50, none⟩]).1
        = (enabledSubset (Provider.mk [] [])
            ((Provider.mk [] []).sortProvidersByPriority
              [⟨"b", none, none, false, none, some 90, none⟩,
               ⟨"a", none, none, false, none, some 10, none⟩,
               ⟨"c", none, none, false, none, some 50, none⟩])).map (fun q => q.name) ∧
      bootNames ((Provider.mk [] []).LoadProviders
          [⟨"b", none, none, false, none, some 90, none⟩,
           ⟨"a", none, none, false, none, some 10, none⟩,
           ⟨"c", none, none, false, none, some 50, none⟩]).1
        = registerNames ((Provider.mk [] []).LoadProviders
            [⟨"b", none, none, false, none, some 90, none⟩,
             ⟨"a", none, none, false, none, some 10, none⟩,
             ⟨"c", none, none, false, none, some 50, none⟩]).1 ∧
      List.Pairwise (fun a b => (Provider.mk [] []).resolvePriority a
          ≤ (Provider.mk [] []).resolvePriority b)
        (enabledSubset (Provider.mk [] [])
          ((Provider.mk [] []).sortProvidersByPriority
            [⟨"b", none, none, false, none, some 90, none⟩,
             ⟨"a", none, none, false, none, some 10, none⟩,
             ⟨"c", none, none, false, none, some 50, none⟩])) :=
  ⟨by decide, loadProviders_two_phases (Provider.mk [] [])
    [⟨"b", none, none, false, none, some 90, none⟩,
     ⟨"a", none, none, false, none, some 10, none⟩,
     ⟨"c", none, none, false, none, some 50, none⟩] (by decide)⟩

/-- C2: when the register phase completes, the registered sequence is the
enabled subset in stable ascending resolved-priority order; stably sorting
the whole registry and then filtering to enabled providers agrees with
sorting the enabled subset only; and providers of equal resolved priority
keep their relative registration order. -/
theorem register_sequence_stable_sorted (p : Provider) (g : List ServiceProvider)
    (h : (registerPhase p (p.sortProvidersByPriority g)).err = none) :
    (registerPhase p (p.sortProvidersByPriority g)).registered
        = p.sortProvidersByPriority (g.filter (fun q => p.IsProviderEnabled q.name)) ∧
    enabledSubset p (p.sortProvidersByPriority g)
        = p.sortProvidersByPriority (g.filter (fun q => p.IsProviderEnabled q.name)) ∧
    (∀ k : Int, (p.sortProvidersByPriority g).filter (fun q => p.resolvePriority q == k)
        = g.filter (fun q => p.resolvePriority q == k)) := by
  have hcomm := sortProvidersByPriority_filter p g (fun q => p.IsProviderEnabled q.name)
  refine ⟨?_, ?_, ?_⟩
  · rw [registerPhase_registered_of_err_none p _ h]
    exact hcomm
  · exact hcomm
  · exact sortProvidersByPriority_stable p g

/-- C2 witness: a registry with a disabled provider and an equal-priority
tie: the registered sequence, the filter/sort commutation and stability all
hold on it. -/
theorem register_sequence_stable_sorted_witness :
    (registerPhase (Provider.mk [("off", false)] [])
        ((Provider.mk [("off", false)] []).sortProvidersByPriority
          [⟨"off", none, none, false, none, some 1, none⟩,
           ⟨"x", none, none, false, none, some 50, none⟩,
           ⟨"y", none, none, false, none, some 10, none⟩,
           ⟨"z", none, none, false, none, some 50, none⟩])).err = none ∧
    ((registerPhase (Provider.mk [("off", false)] [])
        ((Provider.mk [("off", false)] []).sortProvidersByPriority
          [⟨"off", none, none, false, none, some 1, none⟩,
           ⟨"x", none, none, false, none, some 50, none⟩,
           ⟨"y", none, none, false, none, some 10, none⟩,
           ⟨"z", none, none, false, none, some 50, none⟩])).registered
        = (Provider.mk [("off", false)] []).sortProvidersByPriority
            ([⟨"off", none, none, false, none, some 1, none⟩,
              ⟨"x", none, none, false, none, some 50, none⟩,
              ⟨"y", none, none, false, none, some 10, none⟩,
              ⟨"z", none, none, false, none, some 50, none⟩].filter
              (fun q => (Provider.mk [("off", false)] []).IsProviderEnabled q.name)) ∧
      enabledSubset (Provider.mk [("off", false)] [])
          ((Provider.mk [("off", false)] []).sortProvidersByPriority
            [⟨"off", none, none, false, none, some 1, none⟩,
             ⟨"x", none, none, false, none, some 50, none⟩,
             ⟨"y", none, none, false, none, some 10, none⟩,
             ⟨"z", none, none, false, none, some 50, none⟩])
        = (Provider.mk [("off", false)] []).sortProvidersByPriority
            ([⟨"off", none, none, false, none, some 1, none⟩,
              ⟨"x", none, none, false, none, some 50, none⟩,
              ⟨"y", none, none, false, none, some 10, none⟩,
              ⟨"z", none, none, false, none, some 50, none⟩].filter
              (fun q => (Provider.mk [("off", false)] []).IsProviderEnabled q.name)) ∧
      (∀ k : Int, ((Provider.mk [("off", false)] []).sortProvidersByPriority
            [⟨"off", none, none, false, none, some 1, none⟩,
             ⟨"x", none, none, false, none, some 50, none⟩,
             ⟨"y", none, none, false, none, some 10, none⟩,
             ⟨"z", none, none, false, none, some 50, none⟩]).filter
            (fun q => (Provider.mk [("off", false)] []).resolvePriority q == k)
          = [⟨"off", none, none, false, none, some 1, none⟩,
             ⟨"x", none, none, false, none, some 50, none⟩,
             ⟨"y", none, none, false, none, some 10, none⟩,
             ⟨"z", none, none, false, none, some 50, none⟩].filter
            (fun q => (Provider.mk [("off", false)] []).resolvePriority q == k))) :=
  ⟨by decide, register_sequence_stable_sorted (Provider.mk [("off", false)] [])
    [⟨"off", none, none, false, none, some 1, none⟩,
     ⟨"x", none, none, false, none, some 50, none⟩,
     ⟨"y", none, none, false, none, some 10, none⟩,
     ⟨"z", none, none, false, none, some 50, none⟩] (by decide)⟩

theorem bootNames_nil : bootNames [] = [] := rfl

theorem registerNames_nil : registerNames [] = [] := rfl

/-- C6: boot failure handling.  When the boot phase reaches a provider whose
`Boot` fails: if the provider declares itself optional, the run's result is
whatever the remaining providers produce and the later providers still get
their Boot calls; otherwise the run aborts at once with the error wrapped
with that provider's name, the failing provider's Boot being the last call. -/
theorem boot_failure_handling (p : Provider) (g : List ServiceProvider)
    (pre rest : List ServiceProvider) (prov : ServiceProvider) (e : String)
    (hreg : (registerPhase p (p.sortProvidersByPriority g)).err = none)
    (hsplit : (registerPhase p (p.sortProvidersByPriority g)).registered
        = pre ++ prov :: rest)
    (hpre : ∀ q ∈ pre, q.bootErr = none)
    (hfail : prov.bootErr = some e) :
    (prov.optionalCap = some true →
        (p.LoadProviders g).2 = (bootPhase rest).err ∧
        bootNames (p.LoadProviders g).1
          = pre.map (fun q => q.name) ++ prov.name :: bootNames (bootPhase rest).events) ∧
    (¬ prov.optionalCap = some true →
        (p.LoadProviders g).2 = some (LoadError.bootFailed prov.name e) ∧
        bootNames (p.LoadProviders g).1 = pre.map (fun q => q.name) ++ [prov.name]) := by
  have heq := loadProviders_err_none p g hreg
  rw [hsplit, bootPhase_append_ok pre (prov :: rest) hpre] at heq
  constructor
  · intro hopt
    rw [bootPhase_cons_optional prov rest e hfail hopt] at heq
    constructor
    · rw [heq]
    · rw [heq]
      simp only [bootNames_append, bootNames_cons_boot, bootNames_map_boot,
        bootNames_eq_nil _ (registerPhase_events_not_boot p _), List.nil_append]
  · intro hopt
    rw [bootPhase_cons_fail prov rest e hfail hopt] at heq
    constructor
    · rw [heq]
    · rw [heq]
      simp only [bootNames_append, bootNames_cons_boot, bootNames_map_boot, bootNames_nil,
        bootNames_eq_nil _ (registerPhase_events_not_boot p _), List.nil_append]

/-- C6 witness: with registered sequence a, o, c where o is optional and its
Boot fails, the load still boots c and returns no error. -/
theorem boot_failure_handling_witness :
    ((Provider.mk [] []).LoadProviders
        [⟨"a", none, none, false, none, some 10, none⟩,
         ⟨"o", none, some "x", false, none, some 20, some true⟩,
         ⟨"c", none, none, false, none, some 30, none⟩]).2
      = (bootPhase [⟨"c", none, none, false, none, some 30, none⟩]).err ∧
    bootNames ((Provider.mk [] []).LoadProviders
        [⟨"a", none, none, false, none, some 10, none⟩,
         ⟨"o", none, some "x", false, none, some 20, some true⟩,
         ⟨"c", none, none, false, none, some 30, none⟩]).1
      = [⟨"a", none, none, false, none, some 10, none⟩].map
          (fun q : ServiceProvider => q.name)
        ++ "o" :: bootNames
          (bootPhase [⟨"c", none, none, false, none, some 30, none⟩]).events :=
  (boot_failure_handling (Provider.mk [] [])
    [⟨"a", none, none, false, none, some 10, none⟩,
     ⟨"o", none, some "x", false, none, some 20, some true⟩,
     ⟨"c", none, none, false, none, some 30, none⟩]
    [⟨"a", none, none, false, none, some 10, none⟩]
    [⟨"c", none, none, false, none, some 30, none⟩]
    ⟨"o", none, some "x", false, none, some 20, some true⟩ "x"
    (by decide) (by decide) (by decide) rfl).1 rfl

/-- C7: a Configure or Register failure aborts the load at once.  The trace
is exactly the events of the providers handled before the failing one plus
the failing provider's own calls, the returned error is wrapped with the
failing provider's name, and the boot phase never starts (the trace holds no
Boot call at all); nothing is rolled back and no later provider is touched. -/
theorem register_failure_aborts (p : Provider) (g : List ServiceProvider)
    (pre rest : List ServiceProvider) (prov : ServiceProvider)
    (hsplit : p.sortProvidersByPriority g = pre ++ prov :: rest)
    (hpre : ∀ q ∈ pre, regOk p q)
    (hen : p.IsProviderEnabled prov.name = true) :
    (∀ er, configureStepErr p prov = some er →
        p.LoadProviders g
            = ((registerPhase p pre).events ++ configureStepEvents p prov, some er) ∧
        (∃ msg, er = LoadError.configureFailed prov.name msg) ∧
        (∀ ev ∈ (p.LoadProviders g).1, ev.isBoot = false)) ∧
    (∀ e, configureStepErr p prov = none → prov.registerErr = some e →
        p.LoadProviders g
            = ((registerPhase p pre).events
                ++ (configureStepEvents p prov ++ [Event.register prov.name]),
              some (LoadError.registerFailed prov.name e)) ∧
        (∀ ev ∈ (p.LoadProviders g).1, ev.isBoot = false)) := by
  have happ : registerPhase p (p.sortProvidersByPriority g)
      = ⟨(registerPhase p pre).events ++ (registerPhase p (prov :: rest)).events,
          (registerPhase p pre).registered ++ (registerPhase p (prov :: rest)).registered,
          (registerPhase p (prov :: rest)).err⟩ := by
    rw [hsplit]
    exact registerPhase_append_regOk p pre (prov :: rest) hpre
  constructor
  · intro er her
    have hcons := registerPhase_cons_cfgFail p prov rest er hen her
    have herr2 : (registerPhase p (p.sortProvidersByPriority g)).err = some er := by
      rw [happ, hcons]
    have hev : (registerPhase p (p.sortProvidersByPriority g)).events
        = (registerPhase p pre).events ++ configureStepEvents p prov := by
      rw [happ, hcons]
    have hload := loadProviders_err_some p g er herr2
    refine ⟨?_, configureStepErr_spec p prov er her, ?_⟩
    · rw [hload, hev]
    · intro ev hev2
      rw [hload] at hev2
      exact registerPhase_events_not_boot p (p.sortProvidersByPriority g) ev hev2
  · intro e hcfg hr
    have hcons := registerPhase_cons_regFail p prov rest e hen hcfg hr
    have herr2 : (registerPhase p (p.sortProvidersByPriority g)).err
        = some (LoadError.registerFailed prov.name e) := by
      rw [happ, hcons]
    have hev : (registerPhase p (p.sortProvidersByPriority g)).events
        = (registerPhase p pre).events
          ++ (configureStepEvents p prov ++ [Event.register prov.name]) := by
      rw [happ, hcons]
    have hload := loadProviders_err_some p g (LoadError.registerFailed prov.name e) herr2
    refine ⟨?_, ?_⟩
    · rw [hload, hev]
    · intro ev hev2
      rw [hload] at hev2
      exact registerPhase_events_not_boot p (p.sortProvidersByPriority g) ev hev2

/-- C7 witness: provider f (priority 20) fails to register; the load aborts
with the error wrapped with name f, the trace ends at f's Register call and
holds no Boot call. -/
theorem register_failure_aborts_witness :
    ((Provider.mk [] []).LoadProviders
        [⟨"a", none, none, false, none, some 10, none⟩,
         ⟨"f", some "boom", none, false, none, some 20, none⟩,
         ⟨"c", none, none, false, none, some 30, none⟩]
      = ((registerPhase (Provider.mk [] [])
            [⟨"a", none, none, false, none, some 10, none⟩]).events
          ++ (configureStepEvents (Provider.mk [] [])
                ⟨"f", some "boom", none, false, none, some 20, none⟩
              ++ [Event.register "f"]),
          some (LoadError.registerFailed "f" "boom"))) ∧
    (∀ ev ∈ ((Provider.mk [] []).LoadProviders
        [⟨"a", none, none, false, none, some 10, none⟩,
         ⟨"f", some "boom", none, false, none, some 20, none⟩,
         ⟨"c", none, none, false, none, some 30, none⟩]).1, ev.isBoot = false) :=
  (register_failure_aborts (Provider.mk [] [])
    [⟨"a", none, none, false, none, some 10, none⟩,
     ⟨"f", some "boom", none, false, none, some 20, none⟩,
     ⟨"c", none, none, false, none, some 30, none⟩]
    [⟨"a", none, none, false, none, some 10, none⟩]
    [⟨"c", none, none, false, none, some 30, none⟩]
    ⟨"f", some "boom", none, false, none, some 20, none⟩
    (by decide)
    (by
      intro q hq
      rw [List.mem_singleton.mp hq]
      exact Or.inr ⟨rfl, rfl⟩)
    rfl).2 "boom" rfl rfl
